import Mathlib

/-!
Shallow embedding of `src/bot/strategies/sma_cross.py` (class `SmaCrossStrategy`),
the moving-average crossover strategy engine, together with theorems checking the
specification's claims about it.

Modelling conventions:
* Python floats (close prices, profits) are modelled as exact rationals `Rat`.
* Python `int` fields (`fast`, `slow`, `qty`) are modelled as `Int`; the trade
  counters (`trades_count`, `winning_trades`), which start at 0 and are only
  incremented, are modelled as `Nat`.
* The broker client's `place_market_order` capability is modelled as a function
  `Order → Bool` deciding, per order, whether the call succeeds or raises
  `OrderError`; a raised error is recorded in the `raised` field of the result
  and the state at the moment of the raise is returned (Python leaves `self`
  with exactly the mutations performed before the raise).
* The optional `on_signal_callback` is modelled by the Boolean `hasCallback`
  (callback registered or `None`); the list of events in a result is the list of
  dictionaries the method passes to the callback, in order (empty when no
  callback is registered, exactly as the guarded Python calls behave).
* The `time` column of the DataFrame is kept (as an abstract `Nat` timestamp)
  but, like in the source, never read by the averaging logic.
-/

namespace AlgoTrade

/-- Order direction, the `direction` keyword of `place_market_order`. -/
inductive Direction where
  | buy
  | sell
deriving DecidableEq, Repr

/-- One candle as consumed by `on_candle`: its `time` and its close price
(`quotation_to_decimal(candle.close)` converted to `float`). -/
structure Candle where
  time : Nat
  close : Rat
deriving DecidableEq, Repr

/-- One invocation of `client.place_market_order(figi, qty, direction)`. -/
structure Order where
  figi : String
  qty : Int
  direction : Direction
deriving DecidableEq, Repr

/-- The dictionaries the strategy passes to `on_signal_callback`, one
constructor per `"type"` tag appearing in the source. -/
inductive Event where
  | strategyStarted (fast_sma slow_sma qty : Int)
  | strategyStopped (total_profit : Rat) (trades_count winning_trades : Nat)
      (win_rate : Rat)
  | indicatorsUpdate (timestamp : Nat) (price fast_ma slow_ma : Rat)
  | tradeEntry (timestamp : Nat) (price : Rat) (direction : Direction) (qty : Int)
  | tradeExit (timestamp : Nat) (price : Rat) (direction : Direction) (qty : Int)
      (profit total_profit : Rat)
deriving DecidableEq, Repr

/-- Mutable state of a `SmaCrossStrategy` instance: the constructor arguments
kept on `self` (`figi` from the base class, `fast`, `slow`, `qty`, and whether
`on_signal_callback` is set) plus the mutable fields `df`, `position_open`,
`entry_price`, `total_profit`, `trades_count`, `winning_trades`. -/
structure SmaCrossStrategy where
  figi : String
  fast : Int
  slow : Int
  qty : Int
  hasCallback : Bool
  df : List Candle
  position_open : Bool
  entry_price : Rat
  total_profit : Rat
  trades_count : Nat
  winning_trades : Nat
deriving DecidableEq, Repr

/-- Whether an `Except` computation succeeded. -/
def isOkB {ε α : Type} : Except ε α → Bool
  | .ok _ => true
  | .error _ => false

/-- `SmaCrossStrategy.__init__`: raises `ValueError` (the source's
`InvalidConfiguration`) precisely when `fast >= slow`; otherwise returns the
freshly initialised instance with empty history and zeroed statistics. -/
def smaCrossInit (figi : String) (fast slow qty : Int) (hasCallback : Bool) :
    Except String SmaCrossStrategy :=
  if fast ≥ slow then
    .error "fast MA period must be < slow MA period"
  else
    .ok { figi := figi, fast := fast, slow := slow, qty := qty,
          hasCallback := hasCallback, df := [], position_open := false,
          entry_price := 0, total_profit := 0, trades_count := 0,
          winning_trades := 0 }

/-- The close-price column of the DataFrame (`self.df.close`). -/
def closes (df : List Candle) : List Rat := df.map Candle.close

/-- The last `n` elements of the series: the window that
`rolling(n)` places at the final row. -/
def lastWindow (n : Int) (xs : List Rat) : List Rat :=
  xs.drop (xs.length - n.toNat)

/-- `series.rolling(n).mean().iloc[-1]`: the mean over the last `n` entries,
as computed by pandas when the series holds at least `n` entries. -/
def rollingMeanLast (n : Int) (xs : List Rat) : Rat :=
  (lastWindow n xs).sum / (n : Rat)

/-- The result of one `on_candle` call: the state of `self` when the call
returns (or when `OrderError` escapes), the orders submitted to the broker
port, the events delivered to the callback, and whether the call raised. -/
structure StepResult where
  state : SmaCrossStrategy
  orders : List Order
  events : List Event
  raised : Bool
deriving DecidableEq, Repr

/-- `SmaCrossStrategy.on_candle`: append the candle to `df`; return early while
fewer than `slow` rows exist; otherwise compute both rolling means, report the
indicators, and run the crossover state machine, placing a market order through
the broker port before any position/statistics mutation. `port o = false`
models `place_market_order` raising `OrderError` on that order. -/
def on_candle (port : Order → Bool) (s : SmaCrossStrategy) (c : Candle) :
    StepResult :=
  let s1 := { s with df := s.df ++ [c] }
  if (s1.df.length : Int) < s1.slow then
    { state := s1, orders := [], events := [], raised := false }
  else
    let fast_ma := rollingMeanLast s1.fast (closes s1.df)
    let slow_ma := rollingMeanLast s1.slow (closes s1.df)
    let indEvents :=
      if s1.hasCallback then
        [Event.indicatorsUpdate c.time c.close fast_ma slow_ma]
      else []
    if fast_ma > slow_ma ∧ s1.position_open = false then
      let order : Order := { figi := s1.figi, qty := s1.qty, direction := .buy }
      if port order = false then
        { state := s1, orders := [order], events := indEvents, raised := true }
      else
        let s2 := { s1 with position_open := true, entry_price := c.close }
        { state := s2, orders := [order],
          events := indEvents ++
            (if s1.hasCallback then
              [Event.tradeEntry c.time c.close .buy s1.qty]
            else []),
          raised := false }
    else if fast_ma < slow_ma ∧ s1.position_open = true then
      let order : Order := { figi := s1.figi, qty := s1.qty, direction := .sell }
      if port order = false then
        { state := s1, orders := [order], events := indEvents, raised := true }
      else
        let profit := (c.close - s1.entry_price) * (s1.qty : Rat)
        let s2 := { s1 with
          total_profit := s1.total_profit + profit,
          trades_count := s1.trades_count + 1,
          winning_trades :=
            s1.winning_trades + (if profit > 0 then 1 else 0),
          position_open := false }
        { state := s2, orders := [order],
          events := indEvents ++
            (if s1.hasCallback then
              [Event.tradeExit c.time c.close .sell s1.qty profit
                s2.total_profit]
            else []),
          raised := false }
    else
      { state := s1, orders := [], events := indEvents, raised := false }

/-- `SmaCrossStrategy.on_start`: reset position, statistics and history, then
report `strategy_started` to the callback when one is registered. -/
def on_start (s : SmaCrossStrategy) : SmaCrossStrategy × List Event :=
  let s1 := { s with position_open := false, entry_price := 0,
                     total_profit := 0, trades_count := 0,
                     winning_trades := 0, df := [] }
  (s1,
    if s.hasCallback then
      [Event.strategyStarted s.fast s.slow s.qty]
    else [])

/-- `SmaCrossStrategy.on_stop`: report the final statistics to the callback
when one is registered; `self` is not mutated. -/
def on_stop (s : SmaCrossStrategy) : SmaCrossStrategy × List Event :=
  (s,
    if s.hasCallback then
      [Event.strategyStopped s.total_profit s.trades_count s.winning_trades
        (if s.trades_count > 0 then
          (s.winning_trades : Rat) / (s.trades_count : Rat) * 100
        else 0)]
    else [])

/-- Tags an event as a `trade_entry` dictionary. -/
def Event.isTradeEntry : Event → Bool
  | .tradeEntry _ _ _ _ => true
  | _ => false

/-- Tags an event as a `trade_exit` dictionary. -/
def Event.isTradeExit : Event → Bool
  | .tradeExit _ _ _ _ _ _ => true
  | _ => false

/-- Tags an event as an `indicators_update` dictionary. -/
def Event.isIndicatorsUpdate : Event → Bool
  | .indicatorsUpdate _ _ _ _ => true
  | _ => false

/-- Holds when the event list carries no `trade_entry` and no `trade_exit`. -/
def noTradeEvents (es : List Event) : Bool :=
  es.all fun e => !e.isTradeEntry && !e.isTradeExit

/-- Arithmetic mean of a list of rationals, as the specification words it. -/
def arithMean (xs : List Rat) : Rat := xs.sum / (xs.length : Rat)

/-!  Theorems checking the claims.  -/

/-- C1 (counterexample): the configuration `fast = 0, slow = 50` has a
non-positive `fast` window, so the claim requires construction to fail; the
constructor accepts it and returns a usable engine instance. -/
theorem smaCrossInit_accepts_nonpositive_window :
    isOkB (smaCrossInit "BBG004730N88" 0 50 1 true) = true := by
  decide

/-- C1 (amended): construction fails precisely when `fast ≥ slow`; no
non-positivity check is performed, and on failure no engine is produced
(the result is `error`, never `ok`). -/
theorem smaCrossInit_fails_iff (figi : String) (fast slow qty : Int)
    (cb : Bool) :
    isOkB (smaCrossInit figi fast slow qty cb) = decide (fast < slow) := by
  unfold smaCrossInit
  split_ifs with h
  · simp [isOkB, not_lt.mpr h]
  · simp [isOkB, lt_of_not_ge h]

/-- C6: while the history (after appending the new candle) is still shorter
than `slow`, `on_candle` returns having only appended the candle: no order is
placed, no event of any kind is delivered, no error is raised, and the
position and statistics fields are untouched. -/
theorem on_candle_warmup (port : Order → Bool) (s : SmaCrossStrategy)
    (c : Candle) (h : ((s.df ++ [c]).length : Int) < s.slow) :
    on_candle port s c =
      { state := { s with df := s.df ++ [c] }, orders := [], events := [],
        raised := false } := by
  unfold on_candle
  simp only [if_pos h]

/-- C6 (witness): a concrete warm-up call with `slow = 5` and one prior
candle does nothing but record the price. -/
theorem on_candle_warmup_witness :
    ((([({ time := 0, close := 10 } : Candle)] ++
        [({ time := 1, close := 11 } : Candle)]).length : Int) < 5) ∧
    on_candle (fun _ => true)
      { figi := "F", fast := 3, slow := 5, qty := 1, hasCallback := true,
        df := [{ time := 0, close := 10 }], position_open := false,
        entry_price := 0, total_profit := 0, trades_count := 0,
        winning_trades := 0 }
      { time := 1, close := 11 } =
      { state := { figi := "F", fast := 3, slow := 5, qty := 1,
                   hasCallback := true,
                   df := [{ time := 0, close := 10 },
                          { time := 1, close := 11 }],
                   position_open := false, entry_price := 0,
                   total_profit := 0, trades_count := 0,
                   winning_trades := 0 },
        orders := [], events := [], raised := false } :=
  ⟨by decide,
    on_candle_warmup (fun _ => true)
      { figi := "F", fast := 3, slow := 5, qty := 1, hasCallback := true,
        df := [{ time := 0, close := 10 }], position_open := false,
        entry_price := 0, total_profit := 0, trades_count := 0,
        winning_trades := 0 }
      { time := 1, close := 11 } (by decide)⟩

/-- C2: when the broker port raises `OrderError` during an `on_candle` call,
the error escapes to the caller (`raised = true` is the hypothesis) and the
position and statistics are untouched: `position_open`, `entry_price`,
`total_profit`, `trades_count` and `winning_trades` keep their pre-call
values, and no `trade_entry` or `trade_exit` event is delivered. -/
theorem on_candle_raised_preserves_state (port : Order → Bool)
    (s : SmaCrossStrategy) (c : Candle)
    (h : (on_candle port s c).raised = true) :
    (on_candle port s c).state.position_open = s.position_open ∧
    (on_candle port s c).state.entry_price = s.entry_price ∧
    (on_candle port s c).state.total_profit = s.total_profit ∧
    (on_candle port s c).state.trades_count = s.trades_count ∧
    (on_candle port s c).state.winning_trades = s.winning_trades ∧
    noTradeEvents (on_candle port s c).events = true := by
  simp only [on_candle] at h ⊢
  split_ifs at h ⊢ <;>
    simp_all [noTradeEvents, Event.isTradeEntry, Event.isTradeExit]

/-- C2 (witness): with one prior candle, `fast = 1`, `slow = 2`, a rising
price triggers a buy signal; a port that always fails leaves the flat
position and zeroed statistics untouched. -/
theorem on_candle_raised_preserves_state_witness :
    (on_candle (fun _ => false)
      { figi := "F", fast := 1, slow := 2, qty := 1, hasCallback := true,
        df := [{ time := 0, close := 1 }], position_open := false,
        entry_price := 0, total_profit := 0, trades_count := 0,
        winning_trades := 0 }
      { time := 1, close := 3 }).raised = true ∧
    ((on_candle (fun _ => false)
      { figi := "F", fast := 1, slow := 2, qty := 1, hasCallback := true,
        df := [{ time := 0, close := 1 }], position_open := false,
        entry_price := 0, total_profit := 0, trades_count := 0,
        winning_trades := 0 }
      { time := 1, close := 3 }).state.position_open = false ∧
     noTradeEvents (on_candle (fun _ => false)
      { figi := "F", fast := 1, slow := 2, qty := 1, hasCallback := true,
        df := [{ time := 0, close := 1 }], position_open := false,
        entry_price := 0, total_profit := 0, trades_count := 0,
        winning_trades := 0 }
      { time := 1, close := 3 }).events = true) :=
  ⟨by norm_num [on_candle, rollingMeanLast, lastWindow, closes],
    (on_candle_raised_preserves_state (fun _ => false)
      { figi := "F", fast := 1, slow := 2, qty := 1, hasCallback := true,
        df := [{ time := 0, close := 1 }], position_open := false,
        entry_price := 0, total_profit := 0, trades_count := 0,
        winning_trades := 0 }
      { time := 1, close := 3 }
      (by norm_num [on_candle, rollingMeanLast, lastWindow, closes])).1,
    (on_candle_raised_preserves_state (fun _ => false)
      { figi := "F", fast := 1, slow := 2, qty := 1, hasCallback := true,
        df := [{ time := 0, close := 1 }], position_open := false,
        entry_price := 0, total_profit := 0, trades_count := 0,
        winning_trades := 0 }
      { time := 1, close := 3 }
      (by norm_num [on_candle, rollingMeanLast, lastWindow, closes])).2.2.2.2.2⟩

/-- C4: with enough history, `fast_ma > slow_ma` strictly and a flat position,
`on_candle` places exactly one buy order for `qty` lots and, on port success,
opens the position at the current close price and delivers exactly one
`trade_entry` event (after the `indicators_update` event), with timestamp,
price, direction `buy` and quantity. -/
theorem on_candle_entry (port : Order → Bool) (s : SmaCrossStrategy)
    (c : Candle)
    (hl : s.slow ≤ ((s.df ++ [c]).length : Int))
    (hma : rollingMeanLast s.slow (closes (s.df ++ [c])) <
           rollingMeanLast s.fast (closes (s.df ++ [c])))
    (hflat : s.position_open = false)
    (hcb : s.hasCallback = true)
    (hport : port { figi := s.figi, qty := s.qty, direction := .buy } = true) :
    on_candle port s c =
      { state := { s with
                     df := s.df ++ [c], position_open := true,
                     entry_price := c.close },
        orders := [{ figi := s.figi, qty := s.qty, direction := .buy }],
        events := [Event.indicatorsUpdate c.time c.close
                     (rollingMeanLast s.fast (closes (s.df ++ [c])))
                     (rollingMeanLast s.slow (closes (s.df ++ [c]))),
                   Event.tradeEntry c.time c.close .buy s.qty],
        raised := false } := by
  simp only [on_candle]
  rw [if_neg (not_lt.mpr hl), if_pos ⟨hma, hflat⟩]
  simp [hcb, hport]

/-- C4 (witness): `fast = 1`, `slow = 2`, prices `[1, 3]`: the fast mean `3`
crosses above the slow mean `2` while flat, so the call buys one lot, opens
the position at `3` and delivers the two events. -/
theorem on_candle_entry_witness :
    ((2 : Int) ≤ (([({ time := 0, close := 1 } : Candle)] ++
        [({ time := 1, close := 3 } : Candle)]).length : Int)) ∧
    on_candle (fun _ => true)
      { figi := "F", fast := 1, slow := 2, qty := 1, hasCallback := true,
        df := [{ time := 0, close := 1 }], position_open := false,
        entry_price := 0, total_profit := 0, trades_count := 0,
        winning_trades := 0 }
      { time := 1, close := 3 } =
      { state := { figi := "F", fast := 1, slow := 2, qty := 1,
                   hasCallback := true,
                   df := [{ time := 0, close := 1 },
                          { time := 1, close := 3 }],
                   position_open := true, entry_price := 3,
                   total_profit := 0, trades_count := 0,
                   winning_trades := 0 },
        orders := [{ figi := "F", qty := 1, direction := .buy }],
        events := [Event.indicatorsUpdate 1 3 3 2,
                   Event.tradeEntry 1 3 .buy 1],
        raised := false } := by
  refine ⟨by decide, ?_⟩
  have h := on_candle_entry (fun _ => true)
    { figi := "F", fast := 1, slow := 2, qty := 1, hasCallback := true,
      df := [{ time := 0, close := 1 }], position_open := false,
      entry_price := 0, total_profit := 0, trades_count := 0,
      winning_trades := 0 }
    { time := 1, close := 3 } (by decide)
    (by norm_num [rollingMeanLast, lastWindow, closes]) rfl rfl rfl
  rw [h]
  norm_num [rollingMeanLast, lastWindow, closes]

/-- C3: with enough history, `fast_ma < slow_ma` strictly and an open
position, `on_candle` places exactly one sell order for `qty` lots and, on
port success, realises `profit = (close - entry_price) * qty`, adds it to
`total_profit`, increments `trades_count`, increments `winning_trades`
exactly when the profit is positive, closes the position, and delivers
exactly one `trade_exit` event carrying timestamp, price, direction `sell`,
quantity, profit and the accumulated total. -/
theorem on_candle_exit (port : Order → Bool) (s : SmaCrossStrategy)
    (c : Candle)
    (hl : s.slow ≤ ((s.df ++ [c]).length : Int))
    (hma : rollingMeanLast s.fast (closes (s.df ++ [c])) <
           rollingMeanLast s.slow (closes (s.df ++ [c])))
    (hopen : s.position_open = true)
    (hcb : s.hasCallback = true)
    (hport : port { figi := s.figi, qty := s.qty, direction := .sell } = true) :
    on_candle port s c =
      { state := { s with
                     df := s.df ++ [c],
                     total_profit := s.total_profit +
                       (c.close - s.entry_price) * (s.qty : Rat),
                     trades_count := s.trades_count + 1,
                     winning_trades := s.winning_trades +
                       (if (c.close - s.entry_price) * (s.qty : Rat) > 0
                        then 1 else 0),
                     position_open := false },
        orders := [{ figi := s.figi, qty := s.qty, direction := .sell }],
        events := [Event.indicatorsUpdate c.time c.close
                     (rollingMeanLast s.fast (closes (s.df ++ [c])))
                     (rollingMeanLast s.slow (closes (s.df ++ [c]))),
                   Event.tradeExit c.time c.close .sell s.qty
                     ((c.close - s.entry_price) * (s.qty : Rat))
                     (s.total_profit +
                       (c.close - s.entry_price) * (s.qty : Rat))],
        raised := false } := by
  simp only [on_candle]
  rw [if_neg (not_lt.mpr hl),
      if_neg (fun h => by simp [hopen] at h),
      if_pos ⟨hma, hopen⟩]
  simp [hcb, hport]

/-- C3 (witness): `fast = 1`, `slow = 2`, an open position entered at `10`,
prices `[10, 2]`: the fast mean `2` drops below the slow mean `6`, so the
call sells one lot, realises the loss `-8`, counts the completed trade as
non-winning, and delivers the `trade_exit` event. -/
theorem on_candle_exit_witness :
    ((2 : Int) ≤ (([({ time := 0, close := 10 } : Candle)] ++
        [({ time := 1, close := 2 } : Candle)]).length : Int)) ∧
    on_candle (fun _ => true)
      { figi := "F", fast := 1, slow := 2, qty := 1, hasCallback := true,
        df := [{ time := 0, close := 10 }], position_open := true,
        entry_price := 10, total_profit := 0, trades_count := 0,
        winning_trades := 0 }
      { time := 1, close := 2 } =
      { state := { figi := "F", fast := 1, slow := 2, qty := 1,
                   hasCallback := true,
                   df := [{ time := 0, close := 10 },
                          { time := 1, close := 2 }],
                   position_open := false, entry_price := 10,
                   total_profit := -8, trades_count := 1,
                   winning_trades := 0 },
        orders := [{ figi := "F", qty := 1, direction := .sell }],
        events := [Event.indicatorsUpdate 1 2 2 6,
                   Event.tradeExit 1 2 .sell 1 (-8) (-8)],
        raised := false } := by
  refine ⟨by decide, ?_⟩
  have h := on_candle_exit (fun _ => true)
    { figi := "F", fast := 1, slow := 2, qty := 1, hasCallback := true,
      df := [{ time := 0, close := 10 }], position_open := true,
      entry_price := 10, total_profit := 0, trades_count := 0,
      winning_trades := 0 }
    { time := 1, close := 2 } (by decide)
    (by norm_num [rollingMeanLast, lastWindow, closes]) rfl rfl rfl
  rw [h]
  norm_num [rollingMeanLast, lastWindow, closes]

/-- C5: one `on_candle` call places at most one order; on a tie of the two
averages nothing is ordered, no position or statistics field moves and no
trade event is delivered; and while the position is open a `fast_ma > slow_ma`
signal orders nothing and delivers no further `trade_entry`. -/
theorem on_candle_strict_gating (port : Order → Bool) (s : SmaCrossStrategy)
    (c : Candle) :
    (on_candle port s c).orders.length ≤ 1 ∧
    (rollingMeanLast s.fast (closes (s.df ++ [c])) =
       rollingMeanLast s.slow (closes (s.df ++ [c])) →
      (on_candle port s c).orders = [] ∧
      (on_candle port s c).state.position_open = s.position_open ∧
      (on_candle port s c).state.entry_price = s.entry_price ∧
      (on_candle port s c).state.total_profit = s.total_profit ∧
      (on_candle port s c).state.trades_count = s.trades_count ∧
      (on_candle port s c).state.winning_trades = s.winning_trades ∧
      noTradeEvents (on_candle port s c).events = true) ∧
    (s.position_open = true →
      rollingMeanLast s.slow (closes (s.df ++ [c])) <
        rollingMeanLast s.fast (closes (s.df ++ [c])) →
      (on_candle port s c).orders = [] ∧
      List.filter Event.isTradeEntry (on_candle port s c).events = []) := by
  simp only [on_candle]
  split_ifs with h1 h2 h3 h4 h5 <;>
    refine ⟨by simp, fun he => ?_, fun ho hgt => ?_⟩ <;>
    simp_all [noTradeEvents, Event.isTradeEntry, Event.isTradeExit] <;>
    linarith

/-- C5 (witness): `fast = 1`, `slow = 2`, prices `[5, 5]`: both means equal
`5`, so the call orders nothing, keeps the flat position and zeroed
statistics, and delivers no trade event. -/
theorem on_candle_strict_gating_witness :
    (rollingMeanLast 1 (closes ([({ time := 0, close := 5 } : Candle)] ++
         [({ time := 1, close := 5 } : Candle)])) =
       rollingMeanLast 2 (closes ([({ time := 0, close := 5 } : Candle)] ++
         [({ time := 1, close := 5 } : Candle)]))) ∧
    ((on_candle (fun _ => true)
      { figi := "F", fast := 1, slow := 2, qty := 1, hasCallback := true,
        df := [{ time := 0, close := 5 }], position_open := false,
        entry_price := 0, total_profit := 0, trades_count := 0,
        winning_trades := 0 }
      { time := 1, close := 5 }).orders = [] ∧
     (on_candle (fun _ => true)
      { figi := "F", fast := 1, slow := 2, qty := 1, hasCallback := true,
        df := [{ time := 0, close := 5 }], position_open := false,
        entry_price := 0, total_profit := 0, trades_count := 0,
        winning_trades := 0 }
      { time := 1, close := 5 }).state.position_open = false ∧
     noTradeEvents (on_candle (fun _ => true)
      { figi := "F", fast := 1, slow := 2, qty := 1, hasCallback := true,
        df := [{ time := 0, close := 5 }], position_open := false,
        entry_price := 0, total_profit := 0, trades_count := 0,
        winning_trades := 0 }
      { time := 1, close := 5 }).events = true) := by
  have he : rollingMeanLast 1 (closes ([({ time := 0, close := 5 } : Candle)] ++
         [({ time := 1, close := 5 } : Candle)])) =
       rollingMeanLast 2 (closes ([({ time := 0, close := 5 } : Candle)] ++
         [({ time := 1, close := 5 } : Candle)])) := by
    norm_num [rollingMeanLast, lastWindow, closes]
  have h := (on_candle_strict_gating (fun _ => true)
    { figi := "F", fast := 1, slow := 2, qty := 1, hasCallback := true,
      df := [{ time := 0, close := 5 }], position_open := false,
      entry_price := 0, total_profit := 0, trades_count := 0,
      winning_trades := 0 }
    { time := 1, close := 5 }).2.1 he
  exact ⟨he, h.1, h.2.1, h.2.2.2.2.2.2⟩

/-- On a series holding at least `n > 0` entries, the rolling mean over the
final window equals the arithmetic mean of the last `n` entries. -/
theorem rollingMeanLast_eq_arithMean (n : Int) (xs : List Rat)
    (hn : 0 < n) (hlen : n.toNat ≤ xs.length) :
    rollingMeanLast n xs = arithMean (lastWindow n xs) := by
  unfold rollingMeanLast arithMean
  have hlw : (lastWindow n xs).length = n.toNat := by
    unfold lastWindow
    rw [List.length_drop]
    omega
  rw [hlw]
  congr 1
  have h := Int.toNat_of_nonneg hn.le
  exact_mod_cast h.symm

/-- C7: with enough history and a registered callback, every `on_candle`
call delivers exactly one `indicators_update` event — whether or not a
crossover fires or the port fails — carrying the candle's timestamp and
close and the arithmetic means of the last `fast` and last `slow` closes. -/
theorem on_candle_indicators (port : Order → Bool) (s : SmaCrossStrategy)
    (c : Candle)
    (hl : s.slow ≤ ((s.df ++ [c]).length : Int))
    (hcb : s.hasCallback = true)
    (hfast : 0 < s.fast) (hfs : s.fast ≤ s.slow) :
    List.filter Event.isIndicatorsUpdate (on_candle port s c).events =
      [Event.indicatorsUpdate c.time c.close
        (arithMean (lastWindow s.fast (closes (s.df ++ [c]))))
        (arithMean (lastWindow s.slow (closes (s.df ++ [c]))))] := by
  have hlen : (closes (s.df ++ [c])).length = (s.df ++ [c]).length := by
    simp [closes]
  have hfm := rollingMeanLast_eq_arithMean s.fast (closes (s.df ++ [c]))
    hfast (by rw [hlen]; omega)
  have hsm := rollingMeanLast_eq_arithMean s.slow (closes (s.df ++ [c]))
    (lt_of_lt_of_le hfast hfs) (by rw [hlen]; omega)
  simp only [on_candle]
  rw [if_neg (not_lt.mpr hl)]
  split_ifs <;>
    simp_all [Event.isIndicatorsUpdate, Event.isTradeEntry, Event.isTradeExit,
      List.filter_append]

/-- C7 (witness): `fast = 1`, `slow = 2`, prices `[1, 3]`: the single
delivered `indicators_update` carries the means `3` and `2` of the last one
and the last two closes. -/
theorem on_candle_indicators_witness :
    ((2 : Int) ≤ (([({ time := 0, close := 1 } : Candle)] ++
        [({ time := 1, close := 3 } : Candle)]).length : Int)) ∧
    List.filter Event.isIndicatorsUpdate (on_candle (fun _ => true)
      { figi := "F", fast := 1, slow := 2, qty := 1, hasCallback := true,
        df := [{ time := 0, close := 1 }], position_open := false,
        entry_price := 0, total_profit := 0, trades_count := 0,
        winning_trades := 0 }
      { time := 1, close := 3 }).events =
      [Event.indicatorsUpdate 1 3
        (arithMean (lastWindow 1 (closes ([({ time := 0, close := 1 } : Candle)] ++
          [({ time := 1, close := 3 } : Candle)]))))
        (arithMean (lastWindow 2 (closes ([({ time := 0, close := 1 } : Candle)] ++
          [({ time := 1, close := 3 } : Candle)]))))] :=
  ⟨by decide,
    on_candle_indicators (fun _ => true)
      { figi := "F", fast := 1, slow := 2, qty := 1, hasCallback := true,
        df := [{ time := 0, close := 1 }], position_open := false,
        entry_price := 0, total_profit := 0, trades_count := 0,
        winning_trades := 0 }
      { time := 1, close := 3 } (by decide) rfl (by decide) (by decide)⟩

/-- C8: with a registered callback, `on_stop` leaves the state untouched and
delivers exactly one `strategy_stopped` event carrying the accumulated
profit, both counters, and the win rate `winning / completed * 100` when any
trade completed, `0` otherwise. -/
theorem on_stop_emits_stats (s : SmaCrossStrategy)
    (hcb : s.hasCallback = true) :
    on_stop s =
      (s, [Event.strategyStopped s.total_profit s.trades_count
        s.winning_trades
        (if s.trades_count > 0 then
          (s.winning_trades : Rat) / (s.trades_count : Rat) * 100
        else 0)]) := by
  simp [on_stop, hcb]

/-- C8 (witness): after two completed trades, one of them winning, `on_stop`
reports a win rate of `50` and leaves the state unchanged. -/
theorem on_stop_emits_stats_witness :
    on_stop
      { figi := "F", fast := 3, slow := 5, qty := 1, hasCallback := true,
        df := [], position_open := false, entry_price := 0,
        total_profit := 7, trades_count := 2, winning_trades := 1 } =
      ({ figi := "F", fast := 3, slow := 5, qty := 1, hasCallback := true,
         df := [], position_open := false, entry_price := 0,
         total_profit := 7, trades_count := 2, winning_trades := 1 },
       [Event.strategyStopped 7 2 1
         (if (2 : Nat) > 0 then ((1 : Nat) : Rat) / ((2 : Nat) : Rat) * 100
          else 0)]) :=
  on_stop_emits_stats
    { figi := "F", fast := 3, slow := 5, qty := 1, hasCallback := true,
      df := [], position_open := false, entry_price := 0,
      total_profit := 7, trades_count := 2, winning_trades := 1 } rfl

/-- C10: the invariant `winning_trades ≤ trades_count` (both counters are
naturals, hence nonnegative) holds in every freshly constructed engine, is
preserved by `on_candle` — under which both counters are also non-decreasing
— is preserved untouched by `on_stop`, and both counters are reset to zero
together only by `on_start`. -/
theorem stats_counters_invariant (port : Order → Bool) (s : SmaCrossStrategy)
    (c : Candle) (h : s.winning_trades ≤ s.trades_count) :
    (on_candle port s c).state.winning_trades ≤
      (on_candle port s c).state.trades_count ∧
    s.trades_count ≤ (on_candle port s c).state.trades_count ∧
    s.winning_trades ≤ (on_candle port s c).state.winning_trades ∧
    ((on_start s).1.trades_count = 0 ∧ (on_start s).1.winning_trades = 0) ∧
    ((on_stop s).1.trades_count = s.trades_count ∧
     (on_stop s).1.winning_trades = s.winning_trades) ∧
    (∀ figi fast slow qty cb s0,
      smaCrossInit figi fast slow qty cb = .ok s0 →
      s0.winning_trades = 0 ∧ s0.trades_count = 0) := by
  refine ⟨?_, ?_, ?_, by simp [on_start], by simp [on_stop], ?_⟩
  · simp only [on_candle]
    split_ifs <;> simp_all <;> omega
  · simp only [on_candle]
    split_ifs <;> simp_all
  · simp only [on_candle]
    split_ifs <;> simp_all
  · intro figi fast slow qty cb s0 h0
    unfold smaCrossInit at h0
    split_ifs at h0
    cases h0
    exact ⟨rfl, rfl⟩

/-- C10 (witness): a concrete `on_candle` call that completes a losing trade
keeps `winning_trades = 0 ≤ trades_count = 1` and both counters
non-decreasing. -/
theorem stats_counters_invariant_witness :
    ((0 : Nat) ≤ 0) ∧
    ((on_candle (fun _ => true)
      { figi := "F", fast := 1, slow := 2, qty := 1, hasCallback := true,
        df := [{ time := 0, close := 10 }], position_open := true,
        entry_price := 10, total_profit := 0, trades_count := 0,
        winning_trades := 0 }
      { time := 1, close := 2 }).state.winning_trades ≤
     (on_candle (fun _ => true)
      { figi := "F", fast := 1, slow := 2, qty := 1, hasCallback := true,
        df := [{ time := 0, close := 10 }], position_open := true,
        entry_price := 10, total_profit := 0, trades_count := 0,
        winning_trades := 0 }
      { time := 1, close := 2 }).state.trades_count) ∧
    ((0 : Nat) ≤ (on_candle (fun _ => true)
      { figi := "F", fast := 1, slow := 2, qty := 1, hasCallback := true,
        df := [{ time := 0, close := 10 }], position_open := true,
        entry_price := 10, total_profit := 0, trades_count := 0,
        winning_trades := 0 }
      { time := 1, close := 2 }).state.trades_count) :=
  ⟨Nat.le_refl 0,
    (stats_counters_invariant (fun _ => true)
      { figi := "F", fast := 1, slow := 2, qty := 1, hasCallback := true,
        df := [{ time := 0, close := 10 }], position_open := true,
        entry_price := 10, total_profit := 0, trades_count := 0,
        winning_trades := 0 }
      { time := 1, close := 2 } (Nat.le_refl 0)).1,
    (stats_counters_invariant (fun _ => true)
      { figi := "F", fast := 1, slow := 2, qty := 1, hasCallback := true,
        df := [{ time := 0, close := 10 }], position_open := true,
        entry_price := 10, total_profit := 0, trades_count := 0,
        winning_trades := 0 }
      { time := 1, close := 2 } (Nat.le_refl 0)).2.1⟩

/-- The same engine state with the callback registration replaced: the two
runs compared in the non-interference statement differ only here. -/
def withCallback (b : Bool) (s : SmaCrossStrategy) : SmaCrossStrategy :=
  { s with hasCallback := b }

/-- One `on_candle` call is driven entirely by the non-callback state: with a
callback registered it reaches the same state (apart from the registration
field itself), submits the same orders and raises identically as without
one, and without one it delivers no event. -/
theorem on_candle_callback_indep (port : Order → Bool) (s : SmaCrossStrategy)
    (c : Candle) (b : Bool) :
    (on_candle port (withCallback b s) c).state =
      withCallback b (on_candle port (withCallback false s) c).state ∧
    (on_candle port (withCallback b s) c).orders =
      (on_candle port (withCallback false s) c).orders ∧
    (on_candle port (withCallback b s) c).raised =
      (on_candle port (withCallback false s) c).raised ∧
    (on_candle port (withCallback false s) c).events = [] := by
  simp only [on_candle, withCallback]
  split_ifs <;> simp_all

/-- Sequential candle feed: `on_candle` once per candle in arrival order,
halting at the first raised `OrderError` (the application surfaces the error
and stops the run). -/
def runCandles (port : Order → Bool) (s : SmaCrossStrategy) :
    List Candle → StepResult
  | [] => { state := s, orders := [], events := [], raised := false }
  | c :: cs =>
    let r := on_candle port s c
    if r.raised then r
    else
      let rest := runCandles port r.state cs
      { state := rest.state, orders := r.orders ++ rest.orders,
        events := r.events ++ rest.events, raised := rest.raised }

/-- A full strategy run: `on_start`, the candle feed, and — when no order
failed — `on_stop`, with all orders and delivered events collected. -/
def runStrategy (port : Order → Bool) (s : SmaCrossStrategy)
    (cs : List Candle) : StepResult :=
  let r0 := on_start s
  let r := runCandles port r0.1 cs
  if r.raised then
    { state := r.state, orders := r.orders, events := r0.2 ++ r.events,
      raised := true }
  else
    { state := (on_stop r.state).1, orders := r.orders,
      events := r0.2 ++ r.events ++ (on_stop r.state).2, raised := false }

/-- The candle feed is callback-independent, by induction from the per-call
independence. -/
theorem runCandles_callback_indep (port : Order → Bool) (cs : List Candle) :
    ∀ (s : SmaCrossStrategy) (b : Bool),
    (runCandles port (withCallback b s) cs).state =
      withCallback b (runCandles port (withCallback false s) cs).state ∧
    (runCandles port (withCallback b s) cs).orders =
      (runCandles port (withCallback false s) cs).orders ∧
    (runCandles port (withCallback b s) cs).raised =
      (runCandles port (withCallback false s) cs).raised ∧
    (runCandles port (withCallback false s) cs).events = [] := by
  induction cs with
  | nil =>
    intro s b
    refine ⟨rfl, rfl, rfl, rfl⟩
  | cons c cs ih =>
    intro s b
    obtain ⟨hst, hor, hra, hev⟩ := on_candle_callback_indep port s c b
    have hfix : withCallback false
        (on_candle port (withCallback false s) c).state =
        (on_candle port (withCallback false s) c).state :=
      ((on_candle_callback_indep port s c false).1).symm
    have ihr := ih (on_candle port (withCallback false s) c).state b
    rw [hfix] at ihr
    obtain ⟨ist, ior, ira, iev⟩ := ihr
    cases hr : (on_candle port (withCallback false s) c).raised with
    | true =>
      simp [runCandles, hra, hr, hst, hor, hev]
    | false =>
      simp [runCandles, hra, hr, hst, hor, hev, ist, ior, ira, iev]

/-- C9: the observer has no influence on the engine: over any full run
(`on_start`, any candle feed, `on_stop`), the engine reaches the same state
(apart from the callback-registration field itself), submits the same order
stream to the broker port, and raises identically, whether or not a callback
is registered — and with no callback registered no event is ever
delivered. -/
theorem observer_noninterference (port : Order → Bool) (s : SmaCrossStrategy)
    (cs : List Candle) (b : Bool) :
    (runStrategy port (withCallback b s) cs).state =
      withCallback b (runStrategy port (withCallback false s) cs).state ∧
    (runStrategy port (withCallback b s) cs).orders =
      (runStrategy port (withCallback false s) cs).orders ∧
    (runStrategy port (withCallback b s) cs).raised =
      (runStrategy port (withCallback false s) cs).raised ∧
    (runStrategy port (withCallback false s) cs).events = [] := by
  have hstart1 : (on_start (withCallback b s)).1 =
      withCallback b (on_start (withCallback false s)).1 := by
    simp [on_start, withCallback]
  have hstart2 : (on_start (withCallback false s)).2 = [] := by
    simp [on_start, withCallback]
  have hfix : withCallback false (on_start (withCallback false s)).1 =
      (on_start (withCallback false s)).1 := by
    simp [on_start, withCallback]
  have hrc := runCandles_callback_indep port cs
    (on_start (withCallback false s)).1 b
  rw [hfix] at hrc
  obtain ⟨rst, ror, rra, rev⟩ := hrc
  have hstopfix : withCallback false
      (runCandles port (on_start (withCallback false s)).1 cs).state =
      (runCandles port (on_start (withCallback false s)).1 cs).state := by
    have h0 := runCandles_callback_indep port cs
      (on_start (withCallback false s)).1 false
    rw [hfix] at h0
    exact h0.1.symm
  have hstop2 : (on_stop
      (runCandles port (on_start (withCallback false s)).1 cs).state).2 =
      [] := by
    rw [← hstopfix]
    simp [on_stop, withCallback]
  cases hr : (runCandles port (on_start (withCallback false s)).1 cs).raised
    with
  | true =>
    simp [runStrategy, hstart1, rst, ror, rra, hr, hstart2, rev]
  | false =>
    simp [runStrategy, hstart1, rst, ror, rra, hr, hstart2, rev, hstop2,
      on_stop]
    conv_lhs => rw [← hstopfix]
    rfl

end AlgoTrade
